/-
Verification of the reference-build pipeline (kb_python/ref.py).

The module under verification prepares reference artifacts (a kallisto
index, a transcript-to-gene map, transcript-to-capture lists) from a
genome FASTA and a GTF annotation.  The shallow embedding below models:

* annotation records (GTF entries) as a feature tag plus an attribute map;
* sequence records (FASTA entries) as an id plus a body;
* the two writer functions create_t2g_from_gtf and create_t2c, with the
  written file modelled as the list of write calls (each call writing one
  row terminated by a newline) and fallible dictionary access modelled by
  Except carrying the missing key;
* kallisto_index, parameterised by a tool environment supplying binary
  resolution and the outcome of running an external command;
* the two pipelines ref and ref_velocity, parameterised by an environment
  supplying collaborator outcomes (sorting, extraction, concatenation) and
  a static view of the filesystem; each pipeline returns the trace of
  collaborator steps it started together with either the produced
  manifest or the first propagated error.

The filesystem is modelled as static within one run (the skip gate reads
path existence once), matching the single-process usage the spec assumes.
-/
import Mathlib

set_option autoImplicit false

namespace KbPython

/-- Annotation record: one row of gene-annotation data, with a feature tag
and a group mapping from attribute names to values (ref.py consumes
entry, entry group and entry feature from the GTF collaborator). -/
structure AnnotationRecord where
  feature : String
  group : List (String × String)
deriving DecidableEq, Repr

/-- Sequence record: one FASTA entry, an identifier with an opaque body. -/
structure SequenceRecord where
  sequence_id : String
  sequence : String
deriving DecidableEq, Repr

/-- Python dictionary lookup on an attribute mapping: first matching key. -/
def attrLookup : List (String × String) → String → Option String
  | [], _ => none
  | (k, v) :: rest, key => if k = key then some v else attrLookup rest key

/-- Version suffixing from ref.py lines 43-45 and 48-50: the id gets a
dot-version suffix exactly when the version value is truthy, i.e. a
present, non-empty string. -/
def versioned (id : String) (version : Option String) : String :=
  match version with
  | some v => if v = "" then id else id ++ "." ++ v
  | none => id

/-- Transcript column of one t2g row: the transcript_id lookup raises a
missing-key error when absent; otherwise the version rule applies. -/
def transcriptOf (group : List (String × String)) : Except String String :=
  match attrLookup group "transcript_id" with
  | none => .error "transcript_id"
  | some transcript_id =>
      .ok (versioned transcript_id (attrLookup group "transcript_version"))

/-- Gene column of one t2g row, analogous to transcriptOf. -/
def geneOf (group : List (String × String)) : Except String String :=
  match attrLookup group "gene_id" with
  | none => .error "gene_id"
  | some gene_id => .ok (versioned gene_id (attrLookup group "gene_version"))

/-- Gene-name column: a plain get with empty-string default. -/
def geneNameOf (group : List (String × String)) : String :=
  (attrLookup group "gene_name").getD ""

/-- One written t2g row: tab-separated columns, newline-terminated,
exactly the format string of ref.py line 52. -/
def t2gRow (transcript gene gene_name : String) : String :=
  transcript ++ "\t" ++ gene ++ "\t" ++ gene_name ++ "\n"

/-- Row written for the transcript-gene-name component triple. -/
def t2gRowOf (c : String × String × String) : String :=
  t2gRow c.1 c.2.1 c.2.2

/-- Synthetic intron sibling of a component triple: transcript gets the
-I suffix, gene and gene-name are shared (ref.py lines 54-59). -/
def intronSibling (c : String × String × String) : String × String × String :=
  (c.1 ++ "-I", c.2.1, c.2.2)

/-- Writes performed by one loop iteration of create_t2g_from_gtf: a
non-transcript record writes nothing; a transcript record writes its row,
followed by the synthetic intron row when intron is set.  Missing
transcript_id or gene_id propagates as a missing-key error, in the
evaluation order of the source (transcript_id before gene_id). -/
def t2gEntryRows (e : AnnotationRecord) (intron : Bool) :
    Except String (List String) :=
  if e.feature = "transcript" then
    match transcriptOf e.group with
    | .error k => .error k
    | .ok transcript =>
        match geneOf e.group with
        | .error k => .error k
        | .ok gene =>
            let gene_name := geneNameOf e.group
            .ok (t2gRow transcript gene gene_name ::
              (if intron then [t2gRow (transcript ++ "-I") gene gene_name]
               else []))
  else .ok []

/-- Loop of create_t2g_from_gtf over the annotation source, in iteration
order, stopping at the first missing-key error. -/
def t2gRowsAux : List AnnotationRecord → Bool → Except String (List String)
  | [], _ => .ok []
  | e :: rest, intron =>
      match t2gEntryRows e intron with
      | .error k => .error k
      | .ok rows =>
          match t2gRowsAux rest intron with
          | .error k => .error k
          | .ok more => .ok (rows ++ more)

/-- Embedding of create_t2g_from_gtf (ref.py lines 34-61): given the
annotation entries, the output path and the intron flag, produce the list
of written rows and the returned result dictionary, or the first
missing-key error. -/
def create_t2g_from_gtf (entries : List AnnotationRecord)
    (t2g_path : String) (intron : Bool := false) :
    Except String (List String × List (String × String)) :=
  match t2gRowsAux entries intron with
  | .error k => .error k
  | .ok rows => .ok (rows, [("t2g", t2g_path)])

/-- Writes performed by the loop of create_t2c (ref.py lines 67-68): one
write per sequence record, each write being the sequence_id followed by a
newline, in source iteration order. -/
def t2cWrites : List SequenceRecord → List String
  | [] => []
  | e :: rest => (e.sequence_id ++ "\n") :: t2cWrites rest

/-- Embedding of create_t2c (ref.py lines 64-69): the written rows and
the returned result dictionary.  The function is total: it never raises. -/
def create_t2c (entries : List SequenceRecord) (t2c_path : String) :
    List String × List (String × String) :=
  (t2cWrites entries, [("t2c", t2c_path)])

/-- Byte content of a written file: the concatenation of its writes. -/
def fileContent (writes : List String) : String :=
  String.join writes

/-- A Python runtime value as far as the return shapes of this module
go: either a string (a path) or a dictionary from strings to strings. -/
inductive PyVal where
  | str : String → PyVal
  | strDict : List (String × String) → PyVal
deriving DecidableEq, Repr

/-- The Python value returned by create_t2g_from_gtf at ref.py line 61:
the one-key dictionary mapping the key t2g to the given output path. -/
def create_t2g_return (t2g_path : String) : PyVal :=
  PyVal.strDict [("t2g", t2g_path)]

/-- Environment of kallisto_index: resolution of the kallisto binary (a
configuration lookup that may fail) and the outcome of running an
external command (failure covers a missing binary and a non-zero exit). -/
structure ToolEnv where
  kallisto_binary : Except String String
  run_result : List String → Except String Unit

/-- Embedding of kallisto_index (ref.py lines 72-78): returns the list of
external invocations actually performed (each one an argument list) and
either the returned result dictionary or the propagated error.  Binary
resolution happens while the command list is built, so a resolution
failure performs no invocation at all. -/
def kallisto_index (tool : ToolEnv) (fasta_path index_path : String)
    (k : Nat := 31) : List (List String) × Except String (List (String × String)) :=
  match tool.kallisto_binary with
  | .error e => ([], .error e)
  | .ok bin =>
      let command := [bin, "index", "-i", index_path, "-k", toString k, fasta_path]
      match tool.run_result command with
      | .error e => ([command], .error e)
      | .ok _ => ([command], .ok [("index", index_path)])

/-- One pipeline step, recording the collaborator invoked and the paths
it was invoked with. -/
inductive Step where
  | createT2g (gtf_path t2g_path : String) (intron : Bool)
  | sortFasta (fasta_path out_path : String)
  | sortGtf (gtf_path out_path : String)
  | genCdna (sorted_fasta sorted_gtf out_path : String)
  | genIntron (sorted_fasta sorted_gtf out_path : String)
  | createT2c (fasta_path t2c_path : String)
  | concat (path_a path_b out_path : String)
  | kallistoIndex (fasta_path index_path : String)
deriving DecidableEq, Repr

/-- Pipeline environment: the parsed contents behind each path, the
static filesystem existence view, the outcomes of the external
collaborators, and the tool environment. -/
structure Env where
  gtf_entries : String → List AnnotationRecord
  fasta_entries : String → List SequenceRecord
  path_exists : String → Bool
  sort_fasta_result : String → String → Except String Unit
  sort_gtf_result : String → String → Except String Unit
  gen_cdna_result : String → String → String → Except String Unit
  gen_intron_result : String → String → String → Except String Unit
  concat_result : String → String → String → Except String Unit
  tool : ToolEnv

/-- Outcome of one step in a given environment: the embedded writers
decide the first two kinds, the environment decides the collaborators. -/
def Env.stepOutcome (env : Env) : Step → Except String Unit
  | .createT2g gtf_path t2g_path intron =>
      match create_t2g_from_gtf (env.gtf_entries gtf_path) t2g_path intron with
      | .error e => .error e
      | .ok _ => .ok ()
  | .sortFasta fasta_path out_path => env.sort_fasta_result fasta_path out_path
  | .sortGtf gtf_path out_path => env.sort_gtf_result gtf_path out_path
  | .genCdna sf sg out_path => env.gen_cdna_result sf sg out_path
  | .genIntron sf sg out_path => env.gen_intron_result sf sg out_path
  | .createT2c _ _ => .ok ()
  | .concat a b out_path => env.concat_result a b out_path
  | .kallistoIndex fasta_path index_path =>
      match (kallisto_index env.tool fasta_path index_path).2 with
      | .error e => .error e
      | .ok _ => .ok ()

/-- Modelled from the spec: scratch filename of the sorted FASTA, from
the constants module, which is not part of the excerpt; the exact value
is irrelevant to every claim. -/
def SORTED_FASTA_FILENAME : String := "sorted.fa"

/-- Modelled from the spec: scratch filename of the sorted GTF, from the
constants module, which is not part of the excerpt. -/
def SORTED_GTF_FILENAME : String := "sorted.gtf"

/-- Modelled from the spec: scratch filename of the concatenated
cDNA-plus-intron FASTA, from the constants module. -/
def COMBINED_FILENAME : String := "combined.fa"

/-- Path join as used for scratch files. -/
def joinPath (dir file : String) : String := dir ++ "/" ++ file

/-- Manifest returned by a pipeline: artifact key to path, in insertion
order; dictionary update with a fresh key appends. -/
def manifestKeys (m : List (String × String)) : List String := m.map (·.1)

/-- Dictionary access with a default, for reading the t2c key of a
create_t2c result (structurally always present). -/
def dictGetD (d : List (String × String)) (key dflt : String) : String :=
  (attrLookup d key).getD dflt

/-- Embedding of the standard pipeline ref (ref.py lines 81-116).
Returns the trace of steps started, and either the manifest or the first
propagated error (on error the accumulated manifest is not returned,
matching the unwinding of a Python exception past the return). -/
def ref (env : Env) (fasta_path gtf_path cdna_path index_path t2g_path : String)
    (temp_dir : String := "tmp") (overwrite : Bool := false) :
    List Step × Except String (List (String × String)) :=
  let tr0 : List Step := [Step.createT2g gtf_path t2g_path false]
  match create_t2g_from_gtf (env.gtf_entries gtf_path) t2g_path false with
  | .error e => (tr0, .error e)
  | .ok t2g_out =>
      let results : List (String × String) := t2g_out.2
      if !env.path_exists index_path || overwrite then
        let sorted_fasta_path := joinPath temp_dir SORTED_FASTA_FILENAME
        let tr1 := tr0 ++ [Step.sortFasta fasta_path sorted_fasta_path]
        match env.sort_fasta_result fasta_path sorted_fasta_path with
        | .error e => (tr1, .error e)
        | .ok _ =>
            let sorted_gtf_path := joinPath temp_dir SORTED_GTF_FILENAME
            let tr2 := tr1 ++ [Step.sortGtf gtf_path sorted_gtf_path]
            match env.sort_gtf_result gtf_path sorted_gtf_path with
            | .error e => (tr2, .error e)
            | .ok _ =>
                let tr3 := tr2 ++ [Step.genCdna sorted_fasta_path sorted_gtf_path cdna_path]
                match env.gen_cdna_result sorted_fasta_path sorted_gtf_path cdna_path with
                | .error e => (tr3, .error e)
                | .ok _ =>
                    let cdna_fasta_path := cdna_path
                    let tr4 := tr3 ++ [Step.kallistoIndex cdna_fasta_path index_path]
                    match (kallisto_index env.tool cdna_fasta_path index_path).2 with
                    | .error e => (tr4, .error e)
                    | .ok index_result => (tr4, .ok (results ++ index_result))
      else
        (tr0, .ok results)

/-- Embedding of the velocity pipeline ref_velocity (ref.py lines
119-181), with the same trace-and-outcome reading as ref. -/
def ref_velocity (env : Env)
    (fasta_path gtf_path cdna_path intron_path index_path t2g_path
      cdna_t2c_path intron_t2c_path : String)
    (temp_dir : String := "tmp") (overwrite : Bool := false) :
    List Step × Except String (List (String × String)) :=
  let tr0 : List Step := [Step.createT2g gtf_path t2g_path true]
  match create_t2g_from_gtf (env.gtf_entries gtf_path) t2g_path true with
  | .error e => (tr0, .error e)
  | .ok t2g_out =>
      let results : List (String × String) := t2g_out.2
      if !env.path_exists index_path || overwrite then
        let sorted_fasta_path := joinPath temp_dir SORTED_FASTA_FILENAME
        let tr1 := tr0 ++ [Step.sortFasta fasta_path sorted_fasta_path]
        match env.sort_fasta_result fasta_path sorted_fasta_path with
        | .error e => (tr1, .error e)
        | .ok _ =>
            let sorted_gtf_path := joinPath temp_dir SORTED_GTF_FILENAME
            let tr2 := tr1 ++ [Step.sortGtf gtf_path sorted_gtf_path]
            match env.sort_gtf_result gtf_path sorted_gtf_path with
            | .error e => (tr2, .error e)
            | .ok _ =>
                let tr3 := tr2 ++ [Step.genCdna sorted_fasta_path sorted_gtf_path cdna_path]
                match env.gen_cdna_result sorted_fasta_path sorted_gtf_path cdna_path with
                | .error e => (tr3, .error e)
                | .ok _ =>
                    let cdna_fasta_path := cdna_path
                    let results := results ++ [("cdna_fasta", cdna_fasta_path)]
                    let tr4 := tr3 ++ [Step.createT2c cdna_fasta_path cdna_t2c_path]
                    let cdna_t2c_result :=
                      create_t2c (env.fasta_entries cdna_fasta_path) cdna_t2c_path
                    let results := results ++
                      [("cdna_t2c", dictGetD cdna_t2c_result.2 "t2c" "")]
                    let tr5 := tr4 ++ [Step.genIntron sorted_fasta_path sorted_gtf_path intron_path]
                    match env.gen_intron_result sorted_fasta_path sorted_gtf_path intron_path with
                    | .error e => (tr5, .error e)
                    | .ok _ =>
                        let intron_fasta_path := intron_path
                        let results := results ++ [("intron_fasta", intron_fasta_path)]
                        let tr6 := tr5 ++ [Step.createT2c intron_fasta_path intron_t2c_path]
                        let intron_t2c_result :=
                          create_t2c (env.fasta_entries intron_fasta_path) intron_t2c_path
                        let results := results ++
                          [("intron_t2c", dictGetD intron_t2c_result.2 "t2c" "")]
                        let combined_path := joinPath temp_dir COMBINED_FILENAME
                        let tr7 := tr6 ++
                          [Step.concat cdna_fasta_path intron_fasta_path combined_path]
                        match env.concat_result cdna_fasta_path intron_fasta_path combined_path with
                        | .error e => (tr7, .error e)
                        | .ok _ =>
                            let tr8 := tr7 ++ [Step.kallistoIndex combined_path index_path]
                            match (kallisto_index env.tool combined_path index_path).2 with
                            | .error e => (tr8, .error e)
                            | .ok index_result => (tr8, .ok (results ++ index_result))
      else
        (tr0, .ok results)

/-- A planned step together with the manifest entries recorded on its
success. -/
structure PlanItem where
  step : Step
  record : List (String × String)
deriving DecidableEq, Repr

/-- Run a plan in an environment: execute the steps in order, stopping
at the first failing step; the trace collects the steps started,
including a failing one. -/
def runPlan (env : Env) : List PlanItem → List (String × String) →
    List Step × Except String (List (String × String))
  | [], acc => ([], .ok acc)
  | p :: rest, acc =>
      match env.stepOutcome p.step with
      | .error e => ([p.step], .error e)
      | .ok _ =>
          let r := runPlan env rest (acc ++ p.record)
          (p.step :: r.1, r.2)

/-- The plan the standard pipeline follows: the t2g step, then, when the
index is absent or overwrite is set, sorting, cDNA extraction and
indexing. -/
def refPlan (env : Env) (fasta_path gtf_path cdna_path index_path t2g_path
    temp_dir : String) (overwrite : Bool) : List PlanItem :=
  ⟨Step.createT2g gtf_path t2g_path false, [("t2g", t2g_path)]⟩ ::
    (if !env.path_exists index_path || overwrite then
      [⟨Step.sortFasta fasta_path (joinPath temp_dir SORTED_FASTA_FILENAME), []⟩,
       ⟨Step.sortGtf gtf_path (joinPath temp_dir SORTED_GTF_FILENAME), []⟩,
       ⟨Step.genCdna (joinPath temp_dir SORTED_FASTA_FILENAME)
          (joinPath temp_dir SORTED_GTF_FILENAME) cdna_path, []⟩,
       ⟨Step.kallistoIndex cdna_path index_path, [("index", index_path)]⟩]
    else [])

/-- The plan the velocity pipeline follows. -/
def refVelocityPlan (env : Env)
    (fasta_path gtf_path cdna_path intron_path index_path t2g_path
      cdna_t2c_path intron_t2c_path temp_dir : String) (overwrite : Bool) :
    List PlanItem :=
  ⟨Step.createT2g gtf_path t2g_path true, [("t2g", t2g_path)]⟩ ::
    (if !env.path_exists index_path || overwrite then
      [⟨Step.sortFasta fasta_path (joinPath temp_dir SORTED_FASTA_FILENAME), []⟩,
       ⟨Step.sortGtf gtf_path (joinPath temp_dir SORTED_GTF_FILENAME), []⟩,
       ⟨Step.genCdna (joinPath temp_dir SORTED_FASTA_FILENAME)
          (joinPath temp_dir SORTED_GTF_FILENAME) cdna_path,
        [("cdna_fasta", cdna_path)]⟩,
       ⟨Step.createT2c cdna_path cdna_t2c_path, [("cdna_t2c", cdna_t2c_path)]⟩,
       ⟨Step.genIntron (joinPath temp_dir SORTED_FASTA_FILENAME)
          (joinPath temp_dir SORTED_GTF_FILENAME) intron_path,
        [("intron_fasta", intron_path)]⟩,
       ⟨Step.createT2c intron_path intron_t2c_path, [("intron_t2c", intron_t2c_path)]⟩,
       ⟨Step.concat cdna_path intron_path (joinPath temp_dir COMBINED_FILENAME), []⟩,
       ⟨Step.kallistoIndex (joinPath temp_dir COMBINED_FILENAME) index_path,
        [("index", index_path)]⟩]
    else [])

/-- On success, the result dictionary of create_t2g_from_gtf is the
one-key t2g dictionary. -/
theorem create_t2g_from_gtf_ret (entries : List AnnotationRecord)
    (t2g_path : String) (intron : Bool) (rows : List String)
    (ret : List (String × String))
    (h : create_t2g_from_gtf entries t2g_path intron = .ok (rows, ret)) :
    ret = [("t2g", t2g_path)] := by
  unfold create_t2g_from_gtf at h
  cases hr : t2gRowsAux entries intron <;> rw [hr] at h <;>
    simp_all

/-- On success, the result dictionary of kallisto_index is the one-key
index dictionary. -/
theorem kallisto_index_ret (tool : ToolEnv) (fasta_path index_path : String)
    (k : Nat) (d : List (String × String))
    (h : (kallisto_index tool fasta_path index_path k).2 = .ok d) :
    d = [("index", index_path)] := by
  unfold kallisto_index at h
  cases hb : tool.kallisto_binary with
  | error e => rw [hb] at h; simp_all
  | ok bin =>
      rw [hb] at h
      simp only at h
      cases hr : tool.run_result [bin, "index", "-i", index_path, "-k",
          toString k, fasta_path] <;> rw [hr] at h <;> simp_all

/-- The straight-line standard pipeline follows its plan. -/
theorem ref_eq_runPlan (env : Env)
    (fasta_path gtf_path cdna_path index_path t2g_path temp_dir : String)
    (overwrite : Bool) :
    ref env fasta_path gtf_path cdna_path index_path t2g_path temp_dir overwrite =
      runPlan env
        (refPlan env fasta_path gtf_path cdna_path index_path t2g_path temp_dir overwrite)
        [] := by
  cases h1 : create_t2g_from_gtf (env.gtf_entries gtf_path) t2g_path false with
  | error e =>
      simp [ref, refPlan, runPlan, Env.stepOutcome, h1]
  | ok t2g_out =>
      obtain ⟨rows, ret⟩ := t2g_out
      have hret := create_t2g_from_gtf_ret _ _ _ _ _ h1
      subst hret
      cases hg : (!env.path_exists index_path || overwrite) with
      | false => simp [ref, refPlan, runPlan, Env.stepOutcome, h1, hg]
      | true =>
          simp only [ref, refPlan, runPlan, Env.stepOutcome, h1, hg, if_true]
          cases h2 : env.sort_fasta_result fasta_path
              (joinPath temp_dir SORTED_FASTA_FILENAME) with
          | error e => simp [runPlan, Env.stepOutcome, h2]
          | ok u =>
              simp only [runPlan, Env.stepOutcome, h2]
              cases h3 : env.sort_gtf_result gtf_path
                  (joinPath temp_dir SORTED_GTF_FILENAME) with
              | error e => simp [runPlan, Env.stepOutcome, h3]
              | ok u =>
                  simp only [runPlan, Env.stepOutcome, h3]
                  cases h4 : env.gen_cdna_result
                      (joinPath temp_dir SORTED_FASTA_FILENAME)
                      (joinPath temp_dir SORTED_GTF_FILENAME) cdna_path with
                  | error e => simp [runPlan, Env.stepOutcome, h4]
                  | ok u =>
                      simp only [runPlan, Env.stepOutcome, h4]
                      cases h5 : (kallisto_index env.tool cdna_path index_path).2 with
                      | error e => simp [runPlan, Env.stepOutcome, h5]
                      | ok d =>
                          have hd := kallisto_index_ret _ _ _ _ _ h5
                          subst hd
                          simp [runPlan, Env.stepOutcome, h5]

/-- Reading back the t2c key of a create_t2c result yields the t2c path. -/
theorem dictGetD_create_t2c (entries : List SequenceRecord) (p dflt : String) :
    dictGetD (create_t2c entries p).2 "t2c" dflt = p := by
  simp [dictGetD, create_t2c, attrLookup]

/-- The straight-line velocity pipeline follows its plan. -/
theorem ref_velocity_eq_runPlan (env : Env)
    (fasta_path gtf_path cdna_path intron_path index_path t2g_path
      cdna_t2c_path intron_t2c_path temp_dir : String) (overwrite : Bool) :
    ref_velocity env fasta_path gtf_path cdna_path intron_path index_path
        t2g_path cdna_t2c_path intron_t2c_path temp_dir overwrite =
      runPlan env
        (refVelocityPlan env fasta_path gtf_path cdna_path intron_path
          index_path t2g_path cdna_t2c_path intron_t2c_path temp_dir overwrite)
        [] := by
  cases h1 : create_t2g_from_gtf (env.gtf_entries gtf_path) t2g_path true with
  | error e =>
      simp [ref_velocity, refVelocityPlan, runPlan, Env.stepOutcome, h1]
  | ok t2g_out =>
      obtain ⟨rows, ret⟩ := t2g_out
      have hret := create_t2g_from_gtf_ret _ _ _ _ _ h1
      subst hret
      cases hg : (!env.path_exists index_path || overwrite) with
      | false => simp [ref_velocity, refVelocityPlan, runPlan, Env.stepOutcome, h1, hg]
      | true =>
          simp only [ref_velocity, refVelocityPlan, runPlan, Env.stepOutcome, h1, hg, if_true]
          cases h2 : env.sort_fasta_result fasta_path
              (joinPath temp_dir SORTED_FASTA_FILENAME) with
          | error e => simp [runPlan, Env.stepOutcome, h2]
          | ok u =>
              simp only [runPlan, Env.stepOutcome, h2]
              cases h3 : env.sort_gtf_result gtf_path
                  (joinPath temp_dir SORTED_GTF_FILENAME) with
              | error e => simp [runPlan, Env.stepOutcome, h3]
              | ok u =>
                  simp only [runPlan, Env.stepOutcome, h3]
                  cases h4 : env.gen_cdna_result
                      (joinPath temp_dir SORTED_FASTA_FILENAME)
                      (joinPath temp_dir SORTED_GTF_FILENAME) cdna_path with
                  | error e => simp [runPlan, Env.stepOutcome, h4]
                  | ok u =>
                      simp only [runPlan, Env.stepOutcome, h4]
                      cases h5 : env.gen_intron_result
                          (joinPath temp_dir SORTED_FASTA_FILENAME)
                          (joinPath temp_dir SORTED_GTF_FILENAME) intron_path with
                      | error e => simp [runPlan, Env.stepOutcome, h5, dictGetD_create_t2c]
                      | ok u =>
                          simp only [runPlan, Env.stepOutcome, h5]
                          cases h6 : env.concat_result cdna_path intron_path
                              (joinPath temp_dir COMBINED_FILENAME) with
                          | error e =>
                              simp [runPlan, Env.stepOutcome, h6, dictGetD_create_t2c]
                          | ok u =>
                              simp only [runPlan, Env.stepOutcome, h6]
                              cases h7 : (kallisto_index env.tool
                                  (joinPath temp_dir COMBINED_FILENAME) index_path).2 with
                              | error e =>
                                  simp [runPlan, Env.stepOutcome, h7, dictGetD_create_t2c]
                              | ok d =>
                                  have hd := kallisto_index_ret _ _ _ _ _ h7
                                  subst hd
                                  simp [runPlan, Env.stepOutcome, h7, dictGetD_create_t2c]

/-- The trace of a plan run is an initial segment of the planned steps:
no step is re-entered, repeated, or executed out of order. -/
theorem runPlan_trace_take (env : Env) (plan : List PlanItem)
    (acc : List (String × String)) :
    ∃ k, (runPlan env plan acc).1 = (plan.map PlanItem.step).take k := by
  induction plan generalizing acc with
  | nil => exact ⟨0, rfl⟩
  | cons p rest ih =>
      cases h : env.stepOutcome p.step with
      | error e => exact ⟨1, by simp [runPlan, h]⟩
      | ok u =>
          obtain ⟨k, hk⟩ := ih (acc ++ p.record)
          exact ⟨k + 1, by simp [runPlan, h, hk]⟩

/-- On success, a plan run executed every planned step, each step
succeeded, and the manifest is the accumulator followed by every record
in plan order. -/
theorem runPlan_ok (env : Env) (plan : List PlanItem)
    (acc m : List (String × String))
    (h : (runPlan env plan acc).2 = .ok m) :
    (runPlan env plan acc).1 = plan.map PlanItem.step ∧
      m = acc ++ List.flatten (plan.map PlanItem.record) ∧
      ∀ p ∈ plan, env.stepOutcome p.step = .ok () := by
  induction plan generalizing acc with
  | nil =>
      simp only [runPlan] at h
      obtain rfl : acc = m := by simpa using h
      simp [runPlan]
  | cons p rest ih =>
      cases hs : env.stepOutcome p.step with
      | error e => simp [runPlan, hs] at h
      | ok u =>
          simp only [runPlan, hs] at h ⊢
          obtain ⟨h1, h2, h3⟩ := ih (acc ++ p.record) h
          refine ⟨by simp [h1], by simp [h2], ?_⟩
          intro q hq
          rcases List.mem_cons.1 hq with rfl | hq
          · cases u; exact hs
          · exact h3 q hq

/-- On failure, a plan run stopped at its first failing step: the trace
is a list of succeeded steps followed by the single failing step, whose
error is the one returned; nothing after it ran. -/
theorem runPlan_error (env : Env) (plan : List PlanItem)
    (acc : List (String × String)) (e : String)
    (h : (runPlan env plan acc).2 = .error e) :
    ∃ pre s, (runPlan env plan acc).1 = pre ++ [s] ∧
      (∀ t ∈ pre, env.stepOutcome t = .ok ()) ∧
      env.stepOutcome s = .error e := by
  induction plan generalizing acc with
  | nil => simp [runPlan] at h
  | cons p rest ih =>
      cases hs : env.stepOutcome p.step with
      | error e2 =>
          simp only [runPlan, hs] at h ⊢
          obtain rfl : e2 = e := by simpa using h
          exact ⟨[], p.step, rfl, by simp, hs⟩
      | ok u =>
          simp only [runPlan, hs] at h ⊢
          obtain ⟨pre, s, h1, h2, h3⟩ := ih (acc ++ p.record) h
          refine ⟨p.step :: pre, s, by simp [h1], ?_, h3⟩
          intro t ht
          rcases List.mem_cons.1 ht with rfl | ht
          · cases u; exact hs
          · exact h2 t ht

/-- If every planned step succeeds, the run succeeds with the full trace
and the manifest accumulated from every record. -/
theorem runPlan_all_ok (env : Env) (plan : List PlanItem)
    (acc : List (String × String))
    (h : ∀ p ∈ plan, env.stepOutcome p.step = .ok ()) :
    runPlan env plan acc =
      (plan.map PlanItem.step, .ok (acc ++ List.flatten (plan.map PlanItem.record))) := by
  induction plan generalizing acc with
  | nil => simp [runPlan]
  | cons p rest ih =>
      have hp : env.stepOutcome p.step = .ok () := h p (by simp)
      have hr := ih (acc ++ p.record) (fun q hq => h q (by simp [hq]))
      simp [runPlan, hp, hr]

/-- Component triples (transcript, gene, gene-name) extracted from the
transcript-feature records of an annotation source, in iteration order,
with the missing-key error behaviour of the writer loop. -/
def t2gComponentsAux : List AnnotationRecord →
    Except String (List (String × String × String))
  | [] => .ok []
  | e :: rest =>
      if e.feature = "transcript" then
        match transcriptOf e.group with
        | .error k => .error k
        | .ok t =>
            match geneOf e.group with
            | .error k => .error k
            | .ok g =>
                match t2gComponentsAux rest with
                | .error k => .error k
                | .ok cs => .ok ((t, g, geneNameOf e.group) :: cs)
      else t2gComponentsAux rest

/-- Number of transcript-feature records in an annotation source. -/
def countTranscripts : List AnnotationRecord → Nat
  | [] => 0
  | e :: rest =>
      (if e.feature = "transcript" then 1 else 0) + countTranscripts rest

/-- The writer loop produces, per component triple, the real row followed
by the synthetic intron row when the intron flag is set. -/
theorem t2gRowsAux_eq_components (entries : List AnnotationRecord)
    (intron : Bool) :
    t2gRowsAux entries intron =
      (t2gComponentsAux entries).map
        (fun cs => cs.flatMap
          (fun c => t2gRowOf c ::
            (if intron then [t2gRowOf (intronSibling c)] else []))) := by
  induction entries with
  | nil => simp [t2gRowsAux, t2gComponentsAux, Except.map]
  | cons e rest ih =>
      by_cases hf : e.feature = "transcript"
      · cases ht : transcriptOf e.group with
        | error k =>
            simp [t2gRowsAux, t2gComponentsAux, t2gEntryRows, hf, ht, Except.map]
        | ok t =>
            cases hg : geneOf e.group with
            | error k =>
                simp [t2gRowsAux, t2gComponentsAux, t2gEntryRows, hf, ht, hg,
                  Except.map]
            | ok g =>
                cases hc : t2gComponentsAux rest with
                | error k =>
                    rw [hc] at ih
                    simp [t2gRowsAux, t2gComponentsAux, t2gEntryRows, hf, ht,
                      hg, hc, ih, Except.map]
                | ok cs =>
                    rw [hc] at ih
                    simp only [Except.map] at ih
                    simp [t2gRowsAux, t2gComponentsAux, t2gEntryRows, hf, ht,
                      hg, hc, ih, Except.map, t2gRowOf, intronSibling]
      · cases hc : t2gComponentsAux rest with
        | error k =>
            rw [hc] at ih
            simp [t2gRowsAux, t2gComponentsAux, t2gEntryRows, hf, hc, ih,
              Except.map]
        | ok cs =>
            rw [hc] at ih
            simp only [Except.map] at ih
            simp [t2gRowsAux, t2gComponentsAux, t2gEntryRows, hf, hc, ih,
              Except.map]

/-- Successful component extraction yields one triple per
transcript-feature record. -/
theorem t2gComponentsAux_length (entries : List AnnotationRecord)
    (cs : List (String × String × String))
    (h : t2gComponentsAux entries = .ok cs) :
    cs.length = countTranscripts entries := by
  induction entries generalizing cs with
  | nil =>
      simp [t2gComponentsAux] at h
      simp [countTranscripts, ← h]
  | cons e rest ih =>
      by_cases hf : e.feature = "transcript"
      · simp only [t2gComponentsAux, hf, if_true] at h
        cases ht : transcriptOf e.group with
        | error k => rw [ht] at h; exact absurd h (by simp)
        | ok t =>
            rw [ht] at h
            cases hg : geneOf e.group with
            | error k => rw [hg] at h; exact absurd h (by simp)
            | ok g =>
                rw [hg] at h
                cases hc : t2gComponentsAux rest with
                | error k => rw [hc] at h; exact absurd h (by simp)
                | ok cs2 =>
                    rw [hc] at h
                    obtain rfl : (t, g, geneNameOf e.group) :: cs2 = cs := by
                      simpa using h
                    simp [countTranscripts, hf, ih cs2 hc, Nat.add_comm]
      · simp only [t2gComponentsAux, hf, if_false] at h
        simp [countTranscripts, hf, ih cs h]

/-- A list made of two elements per source element has twice its length. -/
theorem flatMap_pair_length {α β : Type} (l : List α) (f g : α → β) :
    (l.flatMap (fun c => [f c, g c])).length = 2 * l.length := by
  induction l with
  | nil => simp
  | cons a rest ih => simp [ih, Nat.mul_add]

/-- The transcript column computation fails only with the transcript_id
missing-key error, and only when that attribute is absent. -/
theorem transcriptOf_error (g : List (String × String)) (k : String)
    (h : transcriptOf g = .error k) :
    k = "transcript_id" ∧ attrLookup g "transcript_id" = none := by
  unfold transcriptOf at h
  cases ha : attrLookup g "transcript_id" <;> rw [ha] at h <;> simp_all

/-- The gene column computation fails only with the gene_id missing-key
error, and only when that attribute is absent. -/
theorem geneOf_error (g : List (String × String)) (k : String)
    (h : geneOf g = .error k) :
    k = "gene_id" ∧ attrLookup g "gene_id" = none := by
  unfold geneOf at h
  cases ha : attrLookup g "gene_id" <;> rw [ha] at h <;> simp_all

/-- One writer iteration fails only with one of the two missing-key
errors. -/
theorem t2gEntryRows_error_key (e : AnnotationRecord) (intron : Bool)
    (k : String) (h : t2gEntryRows e intron = .error k) :
    k = "transcript_id" ∨ k = "gene_id" := by
  unfold t2gEntryRows at h
  by_cases hf : e.feature = "transcript"
  · rw [if_pos hf] at h
    cases ht : transcriptOf e.group with
    | error k2 =>
        rw [ht] at h
        obtain rfl : k2 = k := by simpa using h
        exact Or.inl (transcriptOf_error _ _ ht).1
    | ok t =>
        rw [ht] at h
        cases hg : geneOf e.group with
        | error k2 =>
            rw [hg] at h
            obtain rfl : k2 = k := by simpa using h
            exact Or.inr (geneOf_error _ _ hg).1
        | ok g => rw [hg] at h; simp at h
  · rw [if_neg hf] at h; simp at h

/-- A transcript record missing one of its required attributes makes the
writer loop fail with one of the two missing-key errors. -/
theorem t2gRowsAux_error_of_missing (entries : List AnnotationRecord)
    (intron : Bool)
    (h : ∃ e ∈ entries, e.feature = "transcript" ∧
      (attrLookup e.group "transcript_id" = none ∨
       attrLookup e.group "gene_id" = none)) :
    ∃ k, t2gRowsAux entries intron = .error k ∧
      (k = "transcript_id" ∨ k = "gene_id") := by
  induction entries with
  | nil => simp at h
  | cons e rest ih =>
      obtain ⟨e0, he0, hfe, hmiss⟩ := h
      rcases List.mem_cons.1 he0 with rfl | he0
      · cases hr : t2gEntryRows e0 intron with
        | error k =>
            exact ⟨k, by simp [t2gRowsAux, hr], t2gEntryRows_error_key _ _ _ hr⟩
        | ok rows =>
            exfalso
            unfold t2gEntryRows at hr
            rw [if_pos hfe] at hr
            rcases hmiss with hm | hm
            · rw [show transcriptOf e0.group = .error "transcript_id" from by
                simp [transcriptOf, hm]] at hr
              simp at hr
            · cases ht : transcriptOf e0.group with
              | error k => rw [ht] at hr; simp at hr
              | ok t =>
                  rw [ht] at hr
                  rw [show geneOf e0.group = .error "gene_id" from by
                    simp [geneOf, hm]] at hr
                  simp at hr
      · cases hr : t2gEntryRows e intron with
        | error k =>
            exact ⟨k, by simp [t2gRowsAux, hr], t2gEntryRows_error_key _ _ _ hr⟩
        | ok rows =>
            obtain ⟨k, hk, hor⟩ := ih ⟨e0, he0, hfe, hmiss⟩
            exact ⟨k, by simp [t2gRowsAux, hr, hk], hor⟩

/-- When every transcript record carries both required attributes, the
writer loop succeeds; missing versions or gene names never fail. -/
theorem t2gRowsAux_ok_of_present (entries : List AnnotationRecord)
    (intron : Bool)
    (h : ∀ e ∈ entries, e.feature = "transcript" →
      (attrLookup e.group "transcript_id").isSome ∧
      (attrLookup e.group "gene_id").isSome) :
    ∃ rows, t2gRowsAux entries intron = .ok rows := by
  induction entries with
  | nil => exact ⟨[], rfl⟩
  | cons e rest ih =>
      obtain ⟨rows, hrows⟩ := ih (fun q hq => h q (by simp [hq]))
      by_cases hf : e.feature = "transcript"
      · cases hr : t2gEntryRows e intron with
        | error k =>
            exfalso
            obtain ⟨h1, h2⟩ := h e (by simp) hf
            unfold t2gEntryRows at hr
            rw [if_pos hf] at hr
            cases ht : transcriptOf e.group with
            | error k2 =>
                have hnone := (transcriptOf_error _ _ ht).2
                simp [hnone] at h1
            | ok t =>
                rw [ht] at hr
                cases hg : geneOf e.group with
                | error k2 =>
                    have hnone := (geneOf_error _ _ hg).2
                    simp [hnone] at h2
                | ok g2 => rw [hg] at hr; simp at hr
        | ok rows2 => exact ⟨rows2 ++ rows, by simp [t2gRowsAux, hr, hrows]⟩
      · exact ⟨rows, by simp [t2gRowsAux, t2gEntryRows, hf, hrows]⟩

/-- A flat map producing singletons is a map. -/
theorem flatMap_singleton_eq_map {α β : Type} (l : List α) (f : α → β) :
    l.flatMap (fun c => [f c]) = l.map f := by
  induction l <;> simp_all

/-- Claim C2: for every annotation source on which the writer succeeds,
the written rows are exactly one per transcript-feature record in
non-intron mode and exactly two per such record in intron mode, the
synthetic row immediately following its real row, carrying the
transcript with the -I suffix and the same gene and gene-name; records
of any other feature produce no row. -/
theorem t2g_rows_per_transcript (entries : List AnnotationRecord)
    (p0 p1 : String) (rows0 rows1 : List String)
    (r0 r1 : List (String × String))
    (h0 : create_t2g_from_gtf entries p0 false = .ok (rows0, r0))
    (h1 : create_t2g_from_gtf entries p1 true = .ok (rows1, r1)) :
    ∃ cs, t2gComponentsAux entries = .ok cs ∧
      rows0 = cs.map t2gRowOf ∧
      rows1 = cs.flatMap (fun c => [t2gRowOf c, t2gRowOf (intronSibling c)]) ∧
      rows0.length = countTranscripts entries ∧
      rows1.length = 2 * countTranscripts entries ∧
      ∀ e ∈ entries, e.feature ≠ "transcript" →
        t2gEntryRows e false = .ok [] ∧ t2gEntryRows e true = .ok [] := by
  unfold create_t2g_from_gtf at h0 h1
  rw [t2gRowsAux_eq_components] at h0 h1
  cases hc : t2gComponentsAux entries with
  | error k => rw [hc] at h0; simp [Except.map] at h0
  | ok cs =>
      rw [hc] at h0 h1
      simp only [Except.map] at h0 h1
      obtain ⟨hrows0, hr0⟩ : rows0 = cs.flatMap (fun c => [t2gRowOf c]) ∧
          r0 = [("t2g", p0)] := by
        constructor <;> [skip; skip] <;> simp_all
      obtain ⟨hrows1, hr1⟩ : rows1 =
          cs.flatMap (fun c => [t2gRowOf c, t2gRowOf (intronSibling c)]) ∧
          r1 = [("t2g", p1)] := by
        constructor <;> [skip; skip] <;> simp_all
      have hlen := t2gComponentsAux_length entries cs hc
      refine ⟨cs, rfl, by simp [hrows0, flatMap_singleton_eq_map], hrows1, ?_, ?_, ?_⟩
      · simp [hrows0, flatMap_singleton_eq_map, hlen]
      · rw [hrows1, flatMap_pair_length, hlen]
      · intro e he hf
        exact ⟨by simp [t2gEntryRows, hf], by simp [t2gEntryRows, hf]⟩

/-- Annotation record used for witnesses: a transcript with versions and
a gene name. -/
def demoEntryA : AnnotationRecord :=
  ⟨"transcript", [("transcript_id", "T1"), ("transcript_version", "2"),
    ("gene_id", "G1"), ("gene_version", "3"), ("gene_name", "N1")]⟩

/-- Annotation record used for witnesses: a non-transcript feature. -/
def demoEntryB : AnnotationRecord := ⟨"exon", [("gene_id", "G1")]⟩

/-- Witness for C2 at a two-record source (one transcript, one exon). -/
theorem t2g_rows_per_transcript_witness :
    ∃ cs, t2gComponentsAux [demoEntryA, demoEntryB] = .ok cs ∧
      ["T1.2\tG1.3\tN1\n"] = cs.map t2gRowOf ∧
      ["T1.2\tG1.3\tN1\n", "T1.2-I\tG1.3\tN1\n"] =
        cs.flatMap (fun c => [t2gRowOf c, t2gRowOf (intronSibling c)]) ∧
      (["T1.2\tG1.3\tN1\n"] : List String).length =
        countTranscripts [demoEntryA, demoEntryB] ∧
      (["T1.2\tG1.3\tN1\n", "T1.2-I\tG1.3\tN1\n"] : List String).length =
        2 * countTranscripts [demoEntryA, demoEntryB] ∧
      ∀ e ∈ [demoEntryA, demoEntryB], e.feature ≠ "transcript" →
        t2gEntryRows e false = .ok [] ∧ t2gEntryRows e true = .ok [] :=
  t2g_rows_per_transcript [demoEntryA, demoEntryB] "t2g0.txt" "t2g1.txt"
    ["T1.2\tG1.3\tN1\n"] ["T1.2\tG1.3\tN1\n", "T1.2-I\tG1.3\tN1\n"]
    [("t2g", "t2g0.txt")] [("t2g", "t2g1.txt")] (by rfl) (by rfl)

/-- Claim C3: for transcript records the transcript column is the id
with a dot-version suffix exactly when the version attribute is present
and non-empty, the bare id otherwise; the gene column independently
follows the same rule; and the concrete record (transcript_id T1,
transcript_version 2, gene_id G1, no gene_version, no gene_name) yields
exactly the tab-separated, newline-terminated row T1.2, G1, empty name. -/
theorem t2g_version_suffix_rule (g : List (String × String)) (tid gid : String)
    (htid : attrLookup g "transcript_id" = some tid)
    (hgid : attrLookup g "gene_id" = some gid) :
    (∀ v, attrLookup g "transcript_version" = some v → v ≠ "" →
        transcriptOf g = .ok (tid ++ "." ++ v)) ∧
    (attrLookup g "transcript_version" = some "" → transcriptOf g = .ok tid) ∧
    (attrLookup g "transcript_version" = none → transcriptOf g = .ok tid) ∧
    (∀ v, attrLookup g "gene_version" = some v → v ≠ "" →
        geneOf g = .ok (gid ++ "." ++ v)) ∧
    (attrLookup g "gene_version" = some "" → geneOf g = .ok gid) ∧
    (attrLookup g "gene_version" = none → geneOf g = .ok gid) ∧
    (∀ p, create_t2g_from_gtf
        [⟨"transcript", [("transcript_id", "T1"), ("transcript_version", "2"),
          ("gene_id", "G1")]⟩] p false =
      .ok (["T1.2\tG1\t\n"], [("t2g", p)])) := by
  refine ⟨?_, ?_, ?_, ?_, ?_, ?_, ?_⟩
  · intro v hv hne; simp [transcriptOf, versioned, htid, hv, hne]
  · intro hv; simp [transcriptOf, versioned, htid, hv]
  · intro hv; simp [transcriptOf, versioned, htid, hv]
  · intro v hv hne; simp [geneOf, versioned, hgid, hv, hne]
  · intro hv; simp [geneOf, versioned, hgid, hv]
  · intro hv; simp [geneOf, versioned, hgid, hv]
  · intro p; rfl

/-- Witness for C3 at the attribute map of the demo transcript record. -/
theorem t2g_version_suffix_rule_witness :
    transcriptOf demoEntryA.group = .ok ("T1" ++ "." ++ "2") ∧
    geneOf demoEntryA.group = .ok ("G1" ++ "." ++ "3") ∧
    create_t2g_from_gtf
        [⟨"transcript", [("transcript_id", "T1"), ("transcript_version", "2"),
          ("gene_id", "G1")]⟩] "out.txt" false =
      .ok (["T1.2\tG1\t\n"], [("t2g", "out.txt")]) := by
  have h := t2g_version_suffix_rule demoEntryA.group "T1" "G1" (by rfl) (by rfl)
  exact ⟨h.1 "2" (by rfl) (by decide), h.2.2.2.1 "3" (by rfl) (by decide),
    h.2.2.2.2.2.2 "out.txt"⟩

/-- Claim C7: the t2g writer fails, with the missing key propagated as
the error, exactly in the presence of a transcript record lacking
transcript_id or gene_id; when every transcript record carries both, it
succeeds regardless of versions, and an absent gene_name defaults to the
empty string. -/
theorem t2g_missing_key_errors (entries : List AnnotationRecord)
    (p : String) (intron : Bool) :
    ((∃ e ∈ entries, e.feature = "transcript" ∧
        (attrLookup e.group "transcript_id" = none ∨
         attrLookup e.group "gene_id" = none)) →
      ∃ k, create_t2g_from_gtf entries p intron = .error k ∧
        (k = "transcript_id" ∨ k = "gene_id")) ∧
    ((∀ e ∈ entries, e.feature = "transcript" →
        (attrLookup e.group "transcript_id").isSome ∧
        (attrLookup e.group "gene_id").isSome) →
      ∃ rows, create_t2g_from_gtf entries p intron =
        .ok (rows, [("t2g", p)])) ∧
    (∀ g : List (String × String), attrLookup g "gene_name" = none →
      geneNameOf g = "") := by
  refine ⟨?_, ?_, ?_⟩
  · intro h
    obtain ⟨k, hk, hor⟩ := t2gRowsAux_error_of_missing entries intron h
    exact ⟨k, by simp [create_t2g_from_gtf, hk], hor⟩
  · intro h
    obtain ⟨rows, hrows⟩ := t2gRowsAux_ok_of_present entries intron h
    exact ⟨rows, by simp [create_t2g_from_gtf, hrows]⟩
  · intro g hg
    simp [geneNameOf, hg]

/-- Witness for C7: a source whose transcript record lacks gene_id fails
with the gene_id key; the demo source succeeds; gene_name defaults. -/
theorem t2g_missing_key_errors_witness :
    (∃ k, create_t2g_from_gtf
        [⟨"transcript", [("transcript_id", "T1")]⟩] "w.txt" false =
          .error k ∧ (k = "transcript_id" ∨ k = "gene_id")) ∧
    (∃ rows, create_t2g_from_gtf [demoEntryA, demoEntryB] "w.txt" true =
      .ok (rows, [("t2g", "w.txt")])) ∧
    geneNameOf [("transcript_id", "T1")] = "" := by
  refine ⟨(t2g_missing_key_errors
      [⟨"transcript", [("transcript_id", "T1")]⟩] "w.txt" false).1
      ⟨⟨"transcript", [("transcript_id", "T1")]⟩, by simp, by decide, by decide⟩,
    (t2g_missing_key_errors [demoEntryA, demoEntryB] "w.txt" true).2.1 ?_,
    (t2g_missing_key_errors [] "w.txt" false).2.2 [("transcript_id", "T1")]
      (by decide)⟩
  intro e he hf
  rcases List.mem_cons.1 he with rfl | he2
  · exact ⟨by decide, by decide⟩
  · simp only [List.mem_singleton] at he2
    subst he2
    exact absurd hf (by decide)

/-- The t2c write loop writes the id-plus-newline of each record. -/
theorem t2cWrites_eq_map (entries : List SequenceRecord) :
    t2cWrites entries = entries.map (fun e => e.sequence_id ++ "\n") := by
  induction entries with
  | nil => rfl
  | cons e rest ih => simp [t2cWrites, ih]

/-- Appending a fixed string on the right is injective. -/
theorem append_right_injective (t : String) :
    Function.Injective (fun s => s ++ t) := by
  intro a b h
  have hd : a.data ++ t.data = b.data ++ t.data := by
    have h2 := congrArg String.data h
    simpa [String.data_append] using h2
  have hab := List.append_cancel_right hd
  cases a; cases b; exact congrArg String.mk hab

/-- Claim C4: create_t2c performs exactly one write per sequence record,
each write being exactly the sequence_id followed by a newline, in
source iteration order, with duplicates preserved (the count of a
written line equals the count of its id among the source ids); the
returned dictionary is the t2c path, and the byte content of the file
is fully determined by the source, so two runs over the same source to
the same destination are byte-identical. -/
theorem t2c_rows_exact (entries : List SequenceRecord) (path : String) :
    (create_t2c entries path).1 =
      entries.map (fun e => e.sequence_id ++ "\n") ∧
    (create_t2c entries path).1.length = entries.length ∧
    (∀ i : Nat, (create_t2c entries path).1[i]? =
      (entries[i]?).map (fun e => e.sequence_id ++ "\n")) ∧
    (∀ id, (create_t2c entries path).1.count (id ++ "\n") =
      (entries.map (fun e => e.sequence_id)).count id) ∧
    (create_t2c entries path).2 = [("t2c", path)] ∧
    fileContent (create_t2c entries path).1 =
      String.join (entries.map (fun e => e.sequence_id ++ "\n")) := by
  have hw : (create_t2c entries path).1 =
      entries.map (fun e => e.sequence_id ++ "\n") := t2cWrites_eq_map entries
  have hw2 : (create_t2c entries path).1 =
      (entries.map (fun e => e.sequence_id)).map (fun s => s ++ "\n") := by
    rw [hw, List.map_map]; rfl
  refine ⟨hw, by simp [hw], ?_, ?_, rfl, by simp [hw, fileContent]⟩
  · intro i; simp [hw]
  · intro id
    rw [hw2]
    exact List.count_map_of_injective _ _ (append_right_injective "\n") id

/-- Claim C10: the content create_t2c writes depends only on the
sequence of ids yielded by the source, not on the sequence bodies: two
sources with the same ids in the same order produce the same writes and
byte-identical file content, whatever their bodies and destinations. -/
theorem t2c_depends_only_on_ids (s1 s2 : List SequenceRecord) (p1 p2 : String)
    (h : s1.map (fun e => e.sequence_id) = s2.map (fun e => e.sequence_id)) :
    (create_t2c s1 p1).1 = (create_t2c s2 p2).1 ∧
    fileContent (create_t2c s1 p1).1 = fileContent (create_t2c s2 p2).1 := by
  have h1 : (create_t2c s1 p1).1 =
      (s1.map (fun e => e.sequence_id)).map (fun s => s ++ "\n") := by
    rw [show (create_t2c s1 p1).1 = t2cWrites s1 from rfl, t2cWrites_eq_map,
      List.map_map]
    rfl
  have h2 : (create_t2c s2 p2).1 =
      (s2.map (fun e => e.sequence_id)).map (fun s => s ++ "\n") := by
    rw [show (create_t2c s2 p2).1 = t2cWrites s2 from rfl, t2cWrites_eq_map,
      List.map_map]
    rfl
  have hq : (create_t2c s1 p1).1 = (create_t2c s2 p2).1 := by
    rw [h1, h2, h]
  exact ⟨hq, by rw [hq]⟩

/-- Witness for C10: two one-record sources sharing the id but with
different bodies and destinations write identical content. -/
theorem t2c_depends_only_on_ids_witness :
    (create_t2c [⟨"SEQ1", "ACGT"⟩] "a.txt").1 =
      (create_t2c [⟨"SEQ1", "TTTT"⟩] "b.txt").1 ∧
    fileContent (create_t2c [⟨"SEQ1", "ACGT"⟩] "a.txt").1 =
      fileContent (create_t2c [⟨"SEQ1", "TTTT"⟩] "b.txt").1 :=
  t2c_depends_only_on_ids [⟨"SEQ1", "ACGT"⟩] [⟨"SEQ1", "TTTT"⟩]
    "a.txt" "b.txt" (by rfl)

/-- Claim C8: kallisto_index builds exactly one invocation, whose
argument list is the resolved binary, the fixed index subcommand, the
output index path, the k-mer size (default 31) and the input sequence
path; it returns the index dictionary on success; an unresolvable
binary performs no invocation and propagates the resolution error, and
a failing invocation propagates the run error, with no retry. -/
theorem kallisto_index_contract (tool : ToolEnv)
    (fasta_path index_path : String) (k : Nat) :
    (∀ e, tool.kallisto_binary = .error e →
      kallisto_index tool fasta_path index_path k = ([], .error e)) ∧
    (∀ bin, tool.kallisto_binary = .ok bin →
      (kallisto_index tool fasta_path index_path k).1 =
        [[bin, "index", "-i", index_path, "-k", toString k, fasta_path]] ∧
      (tool.run_result
          [bin, "index", "-i", index_path, "-k", toString k, fasta_path] =
            .ok () →
        (kallisto_index tool fasta_path index_path k).2 =
          .ok [("index", index_path)]) ∧
      (∀ e, tool.run_result
          [bin, "index", "-i", index_path, "-k", toString k, fasta_path] =
            .error e →
        (kallisto_index tool fasta_path index_path k).2 = .error e)) ∧
    (∀ bin, tool.kallisto_binary = .ok bin →
      (kallisto_index tool fasta_path index_path).1 =
        [[bin, "index", "-i", index_path, "-k", "31", fasta_path]]) := by
  have h31 : toString (31 : Nat) = "31" := rfl
  refine ⟨?_, ?_, ?_⟩
  · intro e he; simp [kallisto_index, he]
  · intro bin hbin
    refine ⟨?_, ?_, ?_⟩
    · cases hr : tool.run_result
          [bin, "index", "-i", index_path, "-k", toString k, fasta_path] <;>
        simp [kallisto_index, hbin, hr]
    · intro hr; simp [kallisto_index, hbin, hr]
    · intro e hr; simp [kallisto_index, hbin, hr]
  · intro bin hbin
    cases hr : tool.run_result
        [bin, "index", "-i", index_path, "-k", "31", fasta_path] <;>
      simp [kallisto_index, hbin, h31, hr]

/-- Tool environment whose binary resolves and whose invocations all
succeed. -/
def okTool : ToolEnv := ⟨.ok "kallisto", fun _ => .ok ()⟩

/-- Tool environment whose binary resolution fails. -/
def badTool : ToolEnv := ⟨.error "kallisto binary not found", fun _ => .ok ()⟩

/-- Witness for C8: the successful, unresolvable-binary and failing-run
branches at concrete inputs. -/
theorem kallisto_index_contract_witness :
    kallisto_index badTool "in.fa" "out.idx" 31 =
      ([], .error "kallisto binary not found") ∧
    (kallisto_index okTool "in.fa" "out.idx" 31).1 =
      [["kallisto", "index", "-i", "out.idx", "-k", toString 31, "in.fa"]] ∧
    (kallisto_index okTool "in.fa" "out.idx" 31).2 =
      .ok [("index", "out.idx")] :=
  ⟨(kallisto_index_contract badTool "in.fa" "out.idx" 31).1
      "kallisto binary not found" (by rfl),
   ((kallisto_index_contract okTool "in.fa" "out.idx" 31).2.1
      "kallisto" (by rfl)).1,
   ((kallisto_index_contract okTool "in.fa" "out.idx" 31).2.1
      "kallisto" (by rfl)).2.1 (by rfl)⟩

/-- Counterexample to C9 as stated: the Python value create_t2g_from_gtf
returns is the one-key dictionary wrapping the path, not the bare output
path; at the concrete input (no records, path t2g.txt) the call
succeeds, and its return value differs from the bare path string. -/
theorem create_t2g_return_not_bare_path :
    create_t2g_from_gtf [] "t2g.txt" false =
      .ok ([], [("t2g", "t2g.txt")]) ∧
    create_t2g_return "t2g.txt" ≠ PyVal.str "t2g.txt" :=
  ⟨rfl, by decide⟩

/-- Claim C9 as amended: on success create_t2g_from_gtf returns the
one-key mapping carrying, under the key t2g, exactly the output path it
was given. -/
theorem create_t2g_returns_t2g_mapping (entries : List AnnotationRecord)
    (p : String) (intron : Bool) (rows : List String)
    (ret : List (String × String))
    (h : create_t2g_from_gtf entries p intron = .ok (rows, ret)) :
    ret = [("t2g", p)] ∧ create_t2g_return p = PyVal.strDict [("t2g", p)] :=
  ⟨create_t2g_from_gtf_ret entries p intron rows ret h, rfl⟩

/-- Witness for the amended C9 at the demo record. -/
theorem create_t2g_returns_t2g_mapping_witness :
    create_t2g_from_gtf [demoEntryA] "w2.txt" false =
      .ok (["T1.2\tG1.3\tN1\n"], [("t2g", "w2.txt")]) ∧
    ([("t2g", "w2.txt")] : List (String × String)) = [("t2g", "w2.txt")] ∧
    create_t2g_return "w2.txt" = PyVal.strDict [("t2g", "w2.txt")] :=
  ⟨by rfl,
   (create_t2g_returns_t2g_mapping [demoEntryA] "w2.txt" false
      ["T1.2\tG1.3\tN1\n"] [("t2g", "w2.txt")] (by rfl)).1,
   (create_t2g_returns_t2g_mapping [demoEntryA] "w2.txt" false
      ["T1.2\tG1.3\tN1\n"] [("t2g", "w2.txt")] (by rfl)).2⟩

/-- Claim C1: in both pipelines the index is rebuilt exactly when the
index path does not exist or overwrite is set.  When it is not rebuilt,
the only step run is the t2g writer (no sort, extraction, capture-list,
concatenation or indexing step), and a successful run returns a
manifest holding only the t2g key.  When the gate requires a rebuild,
the manifest of a successful run holds t2g and index (standard) or all
six keys (velocity). -/
theorem ref_skip_and_rebuild_gate (env : Env)
    (fasta_path gtf_path cdna_path intron_path index_path t2g_path
      cdna_t2c_path intron_t2c_path temp_dir : String) (overwrite : Bool) :
    (env.path_exists index_path = true → overwrite = false →
      (ref env fasta_path gtf_path cdna_path index_path t2g_path temp_dir
          overwrite).1 = [Step.createT2g gtf_path t2g_path false] ∧
      (∀ m, (ref env fasta_path gtf_path cdna_path index_path t2g_path
          temp_dir overwrite).2 = .ok m → m = [("t2g", t2g_path)]) ∧
      (ref_velocity env fasta_path gtf_path cdna_path intron_path index_path
          t2g_path cdna_t2c_path intron_t2c_path temp_dir overwrite).1 =
        [Step.createT2g gtf_path t2g_path true] ∧
      (∀ m, (ref_velocity env fasta_path gtf_path cdna_path intron_path
          index_path t2g_path cdna_t2c_path intron_t2c_path temp_dir
          overwrite).2 = .ok m → m = [("t2g", t2g_path)])) ∧
    ((env.path_exists index_path = false ∨ overwrite = true) →
      (∀ m, (ref env fasta_path gtf_path cdna_path index_path t2g_path
          temp_dir overwrite).2 = .ok m →
        m = [("t2g", t2g_path), ("index", index_path)]) ∧
      (∀ m, (ref_velocity env fasta_path gtf_path cdna_path intron_path
          index_path t2g_path cdna_t2c_path intron_t2c_path temp_dir
          overwrite).2 = .ok m →
        manifestKeys m =
          ["t2g", "cdna_fasta", "cdna_t2c", "intron_fasta", "intron_t2c",
           "index"])) := by
  constructor
  · intro hex how
    have hg : (!env.path_exists index_path || overwrite) = false := by
      simp [hex, how]
    rw [ref_eq_runPlan, ref_velocity_eq_runPlan]
    cases hs : env.stepOutcome (Step.createT2g gtf_path t2g_path false) <;>
      cases hs2 : env.stepOutcome (Step.createT2g gtf_path t2g_path true) <;>
        simp [refPlan, refVelocityPlan, hg, runPlan, hs, hs2]
  · intro hgate
    have hg : (!env.path_exists index_path || overwrite) = true := by
      rcases hgate with h | h <;> simp [h]
    constructor
    · intro m hm
      rw [ref_eq_runPlan] at hm
      obtain ⟨htr, hm2, hall⟩ := runPlan_ok _ _ _ _ hm
      rw [hm2]
      simp [refPlan, hg]
    · intro m hm
      rw [ref_velocity_eq_runPlan] at hm
      obtain ⟨htr, hm2, hall⟩ := runPlan_ok _ _ _ _ hm
      rw [hm2]
      simp [refVelocityPlan, hg, manifestKeys]

/-- Claim C5: on a rebuild, a successful velocity run executes exactly
the planned sequence: the cDNA capture list is built from the cDNA file
produced by the extraction step and the intron capture list from the
intron file, both strictly before concatenation, while the index is
built from the concatenated combined file; the manifest carries all six
keys with their paths. -/
theorem velocity_capture_before_concat (env : Env)
    (fasta_path gtf_path cdna_path intron_path index_path t2g_path
      cdna_t2c_path intron_t2c_path temp_dir : String) (overwrite : Bool)
    (hgate : env.path_exists index_path = false ∨ overwrite = true)
    (m : List (String × String))
    (h : (ref_velocity env fasta_path gtf_path cdna_path intron_path
      index_path t2g_path cdna_t2c_path intron_t2c_path temp_dir
      overwrite).2 = .ok m) :
    (ref_velocity env fasta_path gtf_path cdna_path intron_path index_path
        t2g_path cdna_t2c_path intron_t2c_path temp_dir overwrite).1 =
      [Step.createT2g gtf_path t2g_path true,
       Step.sortFasta fasta_path (joinPath temp_dir SORTED_FASTA_FILENAME),
       Step.sortGtf gtf_path (joinPath temp_dir SORTED_GTF_FILENAME),
       Step.genCdna (joinPath temp_dir SORTED_FASTA_FILENAME)
         (joinPath temp_dir SORTED_GTF_FILENAME) cdna_path,
       Step.createT2c cdna_path cdna_t2c_path,
       Step.genIntron (joinPath temp_dir SORTED_FASTA_FILENAME)
         (joinPath temp_dir SORTED_GTF_FILENAME) intron_path,
       Step.createT2c intron_path intron_t2c_path,
       Step.concat cdna_path intron_path (joinPath temp_dir COMBINED_FILENAME),
       Step.kallistoIndex (joinPath temp_dir COMBINED_FILENAME) index_path] ∧
    m = [("t2g", t2g_path), ("cdna_fasta", cdna_path),
         ("cdna_t2c", cdna_t2c_path), ("intron_fasta", intron_path),
         ("intron_t2c", intron_t2c_path), ("index", index_path)] := by
  have hg : (!env.path_exists index_path || overwrite) = true := by
    rcases hgate with h2 | h2 <;> simp [h2]
  rw [ref_velocity_eq_runPlan] at h ⊢
  obtain ⟨htr, hm2, hall⟩ := runPlan_ok _ _ _ _ h
  constructor
  · rw [htr]; simp [refVelocityPlan, hg]
  · rw [hm2]; simp [refVelocityPlan, hg]

/-- Claim C6: in both pipelines, the trace is always an initial segment
of the once-each plan (no step is retried or re-entered); when a step
fails, the run stops there — every earlier step succeeded, the error of
the failing step is returned unchanged to the caller, and no manifest is
produced (the error result carries no mapping); and a returned manifest
implies every started step succeeded (no error was swallowed). -/
theorem pipeline_abort_on_first_error (env : Env)
    (fasta_path gtf_path cdna_path intron_path index_path t2g_path
      cdna_t2c_path intron_t2c_path temp_dir : String) (overwrite : Bool) :
    ((∃ k, (ref env fasta_path gtf_path cdna_path index_path t2g_path
        temp_dir overwrite).1 =
      (List.map PlanItem.step (refPlan env fasta_path gtf_path cdna_path
        index_path t2g_path temp_dir overwrite)).take k) ∧
     (∀ e, (ref env fasta_path gtf_path cdna_path index_path t2g_path
          temp_dir overwrite).2 = .error e →
       ∃ pre s, (ref env fasta_path gtf_path cdna_path index_path t2g_path
          temp_dir overwrite).1 = pre ++ [s] ∧
         (∀ t ∈ pre, env.stepOutcome t = .ok ()) ∧
         env.stepOutcome s = .error e) ∧
     (∀ m, (ref env fasta_path gtf_path cdna_path index_path t2g_path
          temp_dir overwrite).2 = .ok m →
       ∀ t ∈ (ref env fasta_path gtf_path cdna_path index_path t2g_path
          temp_dir overwrite).1, env.stepOutcome t = .ok ())) ∧
    ((∃ k, (ref_velocity env fasta_path gtf_path cdna_path intron_path
        index_path t2g_path cdna_t2c_path intron_t2c_path temp_dir
        overwrite).1 =
      (List.map PlanItem.step (refVelocityPlan env fasta_path gtf_path
        cdna_path intron_path index_path t2g_path cdna_t2c_path
        intron_t2c_path temp_dir overwrite)).take k) ∧
     (∀ e, (ref_velocity env fasta_path gtf_path cdna_path intron_path
          index_path t2g_path cdna_t2c_path intron_t2c_path temp_dir
          overwrite).2 = .error e →
       ∃ pre s, (ref_velocity env fasta_path gtf_path cdna_path intron_path
          index_path t2g_path cdna_t2c_path intron_t2c_path temp_dir
          overwrite).1 = pre ++ [s] ∧
         (∀ t ∈ pre, env.stepOutcome t = .ok ()) ∧
         env.stepOutcome s = .error e) ∧
     (∀ m, (ref_velocity env fasta_path gtf_path cdna_path intron_path
          index_path t2g_path cdna_t2c_path intron_t2c_path temp_dir
          overwrite).2 = .ok m →
       ∀ t ∈ (ref_velocity env fasta_path gtf_path cdna_path intron_path
          index_path t2g_path cdna_t2c_path intron_t2c_path temp_dir
          overwrite).1, env.stepOutcome t = .ok ())) := by
  rw [ref_eq_runPlan, ref_velocity_eq_runPlan]
  refine ⟨⟨runPlan_trace_take _ _ _, ?_, ?_⟩,
    runPlan_trace_take _ _ _, ?_, ?_⟩
  · intro e he; exact runPlan_error _ _ _ _ he
  · intro m hm t ht
    obtain ⟨htr, hm2, hall⟩ := runPlan_ok _ _ _ _ hm
    rw [htr] at ht
    obtain ⟨p, hp, rfl⟩ := List.mem_map.1 ht
    exact hall p hp
  · intro e he; exact runPlan_error _ _ _ _ he
  · intro m hm t ht
    obtain ⟨htr, hm2, hall⟩ := runPlan_ok _ _ _ _ hm
    rw [htr] at ht
    obtain ⟨p, hp, rfl⟩ := List.mem_map.1 ht
    exact hall p hp

/-- Witness environment: every collaborator succeeds and the index path
does not exist. -/
def okEnvBase : Env where
  gtf_entries := fun _ => [demoEntryA]
  fasta_entries := fun _ => [⟨"SEQ1", "ACGT"⟩]
  path_exists := fun _ => false
  sort_fasta_result := fun _ _ => .ok ()
  sort_gtf_result := fun _ _ => .ok ()
  gen_cdna_result := fun _ _ _ => .ok ()
  gen_intron_result := fun _ _ _ => .ok ()
  concat_result := fun _ _ _ => .ok ()
  tool := okTool

/-- Witness environment: as okEnvBase but every path exists. -/
def okEnvExists : Env := { okEnvBase with path_exists := fun _ => true }

/-- Witness environment: cDNA extraction fails. -/
def failEnv : Env :=
  { okEnvBase with gen_cdna_result := fun _ _ _ => .error "cdna failed" }

/-- Witness for C1: with an existing index and no overwrite both
pipelines run only the t2g step; with an absent index the standard run
returns the two-key manifest. -/
theorem ref_skip_and_rebuild_gate_witness :
    (ref okEnvExists "f.fa" "g.gtf" "c.fa" "i.idx" "t.txt" "tmp" false).1 =
      [Step.createT2g "g.gtf" "t.txt" false] ∧
    (ref_velocity okEnvExists "f.fa" "g.gtf" "c.fa" "n.fa" "i.idx" "t.txt"
        "ct.txt" "nt.txt" "tmp" false).1 =
      [Step.createT2g "g.gtf" "t.txt" true] ∧
    ([("t2g", "t.txt"), ("index", "i.idx")] : List (String × String)) =
      [("t2g", "t.txt"), ("index", "i.idx")] := by
  refine ⟨?_, ?_, ?_⟩
  · exact ((ref_skip_and_rebuild_gate okEnvExists "f.fa" "g.gtf" "c.fa"
      "n.fa" "i.idx" "t.txt" "ct.txt" "nt.txt" "tmp" false).1 rfl rfl).1
  · exact ((ref_skip_and_rebuild_gate okEnvExists "f.fa" "g.gtf" "c.fa"
      "n.fa" "i.idx" "t.txt" "ct.txt" "nt.txt" "tmp" false).1 rfl rfl).2.2.1
  · exact ((ref_skip_and_rebuild_gate okEnvBase "f.fa" "g.gtf" "c.fa"
      "n.fa" "i.idx" "t.txt" "ct.txt" "nt.txt" "tmp" false).2
      (Or.inl rfl)).1 [("t2g", "t.txt"), ("index", "i.idx")] (by rfl)

/-- Witness for C5: the all-success velocity run at concrete paths. -/
theorem velocity_capture_before_concat_witness :
    (ref_velocity okEnvBase "f.fa" "g.gtf" "c.fa" "n.fa" "i.idx" "t.txt"
        "ct.txt" "nt.txt" "tmp" false).1 =
      [Step.createT2g "g.gtf" "t.txt" true,
       Step.sortFasta "f.fa" (joinPath "tmp" SORTED_FASTA_FILENAME),
       Step.sortGtf "g.gtf" (joinPath "tmp" SORTED_GTF_FILENAME),
       Step.genCdna (joinPath "tmp" SORTED_FASTA_FILENAME)
         (joinPath "tmp" SORTED_GTF_FILENAME) "c.fa",
       Step.createT2c "c.fa" "ct.txt",
       Step.genIntron (joinPath "tmp" SORTED_FASTA_FILENAME)
         (joinPath "tmp" SORTED_GTF_FILENAME) "n.fa",
       Step.createT2c "n.fa" "nt.txt",
       Step.concat "c.fa" "n.fa" (joinPath "tmp" COMBINED_FILENAME),
       Step.kallistoIndex (joinPath "tmp" COMBINED_FILENAME) "i.idx"] ∧
    [("t2g", "t.txt"), ("cdna_fasta", "c.fa"), ("cdna_t2c", "ct.txt"),
     ("intron_fasta", "n.fa"), ("intron_t2c", "nt.txt"),
     ("index", "i.idx")] =
      [("t2g", "t.txt"), ("cdna_fasta", "c.fa"), ("cdna_t2c", "ct.txt"),
       ("intron_fasta", "n.fa"), ("intron_t2c", "nt.txt"),
       ("index", "i.idx")] :=
  velocity_capture_before_concat okEnvBase "f.fa" "g.gtf" "c.fa" "n.fa"
    "i.idx" "t.txt" "ct.txt" "nt.txt" "tmp" false (Or.inl rfl)
    [("t2g", "t.txt"), ("cdna_fasta", "c.fa"), ("cdna_t2c", "ct.txt"),
     ("intron_fasta", "n.fa"), ("intron_t2c", "nt.txt"), ("index", "i.idx")]
    (by rfl)

/-- Witness for C6: a run whose cDNA extraction fails stops at that step
with every earlier step succeeded, and an all-success velocity run has
every started step succeed. -/
theorem pipeline_abort_on_first_error_witness :
    (∃ pre s, (ref failEnv "f.fa" "g.gtf" "c.fa" "i.idx" "t.txt" "tmp"
        false).1 = pre ++ [s] ∧
      (∀ t ∈ pre, failEnv.stepOutcome t = .ok ()) ∧
      failEnv.stepOutcome s = .error "cdna failed") ∧
    (∀ t ∈ (ref_velocity okEnvBase "f.fa" "g.gtf" "c.fa" "n.fa" "i.idx"
        "t.txt" "ct.txt" "nt.txt" "tmp" false).1,
      okEnvBase.stepOutcome t = .ok ()) :=
  ⟨((pipeline_abort_on_first_error failEnv "f.fa" "g.gtf" "c.fa" "n.fa"
      "i.idx" "t.txt" "ct.txt" "nt.txt" "tmp" false).1).2.1
      "cdna failed" (by rfl),
   ((pipeline_abort_on_first_error okEnvBase "f.fa" "g.gtf" "c.fa" "n.fa"
      "i.idx" "t.txt" "ct.txt" "nt.txt" "tmp" false).2).2.2
      [("t2g", "t.txt"), ("cdna_fasta", "c.fa"), ("cdna_t2c", "ct.txt"),
       ("intron_fasta", "n.fa"), ("intron_t2c", "nt.txt"),
       ("index", "i.idx")] (by rfl)⟩

end KbPython
